import Mathlib

/-!
# Kaizen-Blitz persistence and domain-aggregation layer: a shallow embedding

This file embeds the data model and the operations of the Kaizen-Blitz
repository (Python / SQLAlchemy) and proves properties about them:

* the JSON serialization of list-of-string fields (`json.dumps` /
  `json.loads` as used by `set_team_members` / `get_team_members`,
  `set_additional_whys` / `get_additional_whys`, `set_causes_list` /
  `get_causes_list`);
* `FiveWhys.get_all_whys`;
* `Project.calculate_progress`, including an exact model of the IEEE-754
  binary64 arithmetic performed by Python's
  `int((completed_count / total_count) * 100)`;
* the generic repository operations `delete` and `search`
  (`BaseRepository` over an abstract row store);
* delete-cascade over the relational store, as configured by the
  `cascade="all, delete-orphan"` relationship declarations;
* the `mark_complete` handlers of the three artifact views.

Machine integers do not occur (Python ints are unbounded); the only
floating-point computation in scope (`calculate_progress`) is modelled
exactly over dyadic rationals represented by natural numbers.
-/

namespace KaizenBlitz

/-! ## JSON model

Model of the fragment of Python's `json` module exercised by the code:
`json.dumps(l)` for `l` a list of `str` (default options, in particular
`ensure_ascii=True` and item separator `", "`), and `json.loads(s)` on a
blob expected to hold such an array.  The parser accepts exactly the JSON
arrays of strings (with Python's whitespace conventions and string escape
grammar); any other input — including textually corrupt blobs — is a parse
failure, which the getters below turn into an empty list.  Two deliberate
scope restrictions, both irrelevant to every stored blob the application
can produce: well-formed JSON that is not an array of strings is treated
as a parse failure, and `\uXXXX` escapes denoting lone surrogates (which
CPython would admit) are rejected, since a Lean `Char` is a unicode
scalar value. -/

/-- The whitespace characters `json.loads` skips between tokens. -/
def isJsonWs (c : Char) : Bool :=
  c = ' ' || c = '\t' || c = '\n' || c = '\r'

/-- Skip leading JSON whitespace. -/
def skipWs : List Char → List Char
  | [] => []
  | c :: r => if isJsonWs c then skipWs r else c :: r

/-- Lowercase hexadecimal digit, as produced by Python's `'%04x'`. -/
def hexChar (n : Nat) : Char :=
  if n < 10 then Char.ofNat ('0'.toNat + n) else Char.ofNat ('a'.toNat + (n - 10))

/-- Numeric value of a hexadecimal digit (either case, as `json.loads`
accepts both). -/
def hexDigitVal (c : Char) : Option Nat :=
  if '0' ≤ c ∧ c ≤ '9' then some (c.toNat - '0'.toNat)
  else if 'a' ≤ c ∧ c ≤ 'f' then some (c.toNat - 'a'.toNat + 10)
  else if 'A' ≤ c ∧ c ≤ 'F' then some (c.toNat - 'A'.toNat + 10)
  else none

/-- The four-digit lowercase hex rendering `'%04x' % n` used inside a
`\uXXXX` escape. -/
def hex4 (n : Nat) : List Char :=
  [hexChar (n / 4096 % 16), hexChar (n / 256 % 16), hexChar (n / 16 % 16), hexChar (n % 16)]

/-- Value of a parsed `\uXXXX` escape. -/
def hex4Val (h1 h2 h3 h4 : Char) : Option Nat := do
  let a ← hexDigitVal h1
  let b ← hexDigitVal h2
  let c ← hexDigitVal h3
  let d ← hexDigitVal h4
  pure (a * 4096 + b * 256 + c * 16 + d)

/-- The unicode scalar with code `n`, when `n` is a valid code. -/
def mkChar (n : Nat) : Option Char :=
  if h : n.isValidChar then some (Char.ofNatAux n h) else none

/-- How `json.dumps` (with its default `ensure_ascii=True`) renders one
character of a string: `"` and `\` get a backslash escape, the five
control characters with short escapes use them, printable ASCII is kept
verbatim, and everything else becomes `\uXXXX` escapes — a surrogate pair
of them for codes beyond the basic multilingual plane. -/
def encodeChar (c : Char) : List Char :=
  if c = '"' then ['\\', '"']
  else if c = '\\' then ['\\', '\\']
  else if c = '\n' then ['\\', 'n']
  else if c = '\r' then ['\\', 'r']
  else if c = '\t' then ['\\', 't']
  else if c.toNat = 8 then ['\\', 'b']
  else if c.toNat = 12 then ['\\', 'f']
  else if 0x20 ≤ c.toNat ∧ c.toNat ≤ 0x7e then [c]
  else if c.toNat < 0x10000 then '\\' :: 'u' :: hex4 c.toNat
  else
    '\\' :: 'u' :: hex4 (0xd800 + (c.toNat - 0x10000) / 1024) ++
      '\\' :: 'u' :: hex4 (0xdc00 + (c.toNat - 0x10000) % 1024)

/-- `json.dumps` escaping of a whole string body. -/
def encodeChars (s : List Char) : List Char := s.flatMap encodeChar

/-- One serialized array item: a quoted, escaped string. -/
def encodeItem (s : List Char) : List Char := '"' :: encodeChars s ++ ['"']

/-- `json.dumps` of a list of strings (character-level): `[]` for the
empty list, otherwise the items joined by `", "` inside brackets. -/
def dumpsChars (items : List (List Char)) : List Char :=
  match items with
  | [] => ['[', ']']
  | i :: rest =>
    '[' :: encodeItem i ++ rest.flatMap (fun j => ',' :: ' ' :: encodeItem j) ++ [']']

/-- `json.dumps` of a list of strings. -/
def json_dumps_list (l : List String) : String :=
  ⟨dumpsChars (l.map String.data)⟩

/-- Surrogate-pair continuation of the string scanner: after a
`\uXXXX` escape carrying a high surrogate `n`, the input must continue
with a low-surrogate `\uXXXX` escape; the pair is combined into one
scalar.  `rec` scans the remainder. -/
def psaSurrogate (rec : List Char → Option (List Char × List Char)) (n : Nat) :
    List Char → Option (List Char × List Char)
  | e2 :: u2 :: g1 :: g2 :: g3 :: g4 :: r3 =>
    if e2 = '\\' ∧ u2 = 'u' then
      match hex4Val g1 g2 g3 g4 with
      | none => none
      | some m =>
        if 0xdc00 ≤ m ∧ m ≤ 0xdfff then
          match mkChar (0x10000 + (n - 0xd800) * 1024 + (m - 0xdc00)) with
          | none => none
          | some ch => (rec r3).map (fun p => (ch :: p.1, p.2))
        else none
    else none
  | _ => none

/-- `\uXXXX` continuation of the string scanner: four hex digits give a
code unit; a high surrogate defers to `psaSurrogate`, a lone low
surrogate is rejected (see the module comment), anything else is a
scalar. -/
def psaUnicode (rec : List Char → Option (List Char × List Char)) :
    List Char → Option (List Char × List Char)
  | h1 :: h2 :: h3 :: h4 :: r2 =>
    match hex4Val h1 h2 h3 h4 with
    | none => none
    | some n =>
      if n < 0xd800 ∨ 0xdfff < n then
        match mkChar n with
        | none => none
        | some ch => (rec r2).map (fun p => (ch :: p.1, p.2))
      else if n ≤ 0xdbff then psaSurrogate rec n r2
      else none
  | _ => none

/-- Backslash continuation of the string scanner: the eight one-letter
escapes, or `\uXXXX`; anything else is an invalid escape
(`json.loads` raises). -/
def psaEscape (rec : List Char → Option (List Char × List Char)) :
    List Char → Option (List Char × List Char)
  | [] => none
  | e :: r =>
    if e = '"' then (rec r).map (fun p => ('"' :: p.1, p.2))
    else if e = '\\' then (rec r).map (fun p => ('\\' :: p.1, p.2))
    else if e = '/' then (rec r).map (fun p => ('/' :: p.1, p.2))
    else if e = 'b' then (rec r).map (fun p => (Char.ofNat 8 :: p.1, p.2))
    else if e = 'f' then (rec r).map (fun p => (Char.ofNat 12 :: p.1, p.2))
    else if e = 'n' then (rec r).map (fun p => ('\n' :: p.1, p.2))
    else if e = 'r' then (rec r).map (fun p => ('\r' :: p.1, p.2))
    else if e = 't' then (rec r).map (fun p => ('\t' :: p.1, p.2))
    else if e = 'u' then psaUnicode rec r
    else none

/-- One step of the string scanner: a closing quote ends the string, a
backslash starts an escape, a raw control character is rejected
(strict mode), any other character is taken verbatim. -/
def psaStep (rec : List Char → Option (List Char × List Char)) :
    List Char → Option (List Char × List Char)
  | [] => none
  | c :: rest =>
    if c = '"' then some ([], rest)
    else if c = '\\' then psaEscape rec rest
    else if c.toNat < 0x20 then none
    else (rec rest).map (fun p => (c :: p.1, p.2))

/-- JSON string-body scanner (the input starts right after the opening
quote): returns the decoded body and the input remaining after the
closing quote.  Follows CPython's `py_scanstring` in strict mode.  Each
step consumes at least one input character, so any fuel exceeding the
input length is surplus and the `0` case is unreachable from the call
sites below. -/
def parseStringAux : Nat → List Char → Option (List Char × List Char)
  | 0, _ => none
  | fuel + 1, input => psaStep (parseStringAux fuel) input

/-- Array-tail scanner: the input sits right after a parsed item; it is
either closed by `]` or continued by `,` and a further string.  The fuel
argument only bounds the number of items and is in surplus whenever it is
at least the item count. -/
def parseItemsAux : Nat → List Char → Option (List (List Char) × List Char)
  | fuel, input =>
    match skipWs input with
    | [] => none
    | c :: r =>
      if c = ']' then some ([], r)
      else if c = ',' then
        match skipWs r with
        | [] => none
        | c2 :: r2 =>
          if c2 = '"' then
            match parseStringAux (r2.length + 1) r2 with
            | some (s, r3) =>
              match fuel with
              | 0 => none
              | fuel' + 1 => (parseItemsAux fuel' r3).map (fun p => (s :: p.1, p.2))
            | none => none
          else none
      else none

/-- `json.loads` restricted to arrays of strings (character-level):
leading whitespace, a bracketed comma-separated list of JSON strings,
trailing whitespace, nothing else. -/
def jsonLoadsChars (input : List Char) : Option (List (List Char)) :=
  match skipWs input with
  | [] => none
  | c :: r =>
    if c = '[' then
      match skipWs r with
      | [] => none
      | c2 :: r2 =>
        if c2 = ']' then (if skipWs r2 = [] then some [] else none)
        else if c2 = '"' then
          match parseStringAux (r2.length + 1) r2 with
          | some (s, r3) =>
            match parseItemsAux input.length r3 with
            | some (ss, rest) => if skipWs rest = [] then some (s :: ss) else none
            | none => none
          | none => none
        else none
    else none

/-- `json.loads` of a blob expected to hold an array of strings; `none`
is `JSONDecodeError`. -/
def json_loads_list (s : String) : Option (List String) :=
  (jsonLoadsChars s.data).map (fun l => l.map String.mk)

/-! ## IEEE-754 binary64 model

`Project.calculate_progress` computes `int((completed_count /
total_count) * 100)`: a true division of two Python ints (producing the
binary64 value nearest to the exact quotient), a multiplication by `100`
(correctly rounded to binary64), and truncation toward zero.  Both
operands are non-negative and the quotient is at most `1`, so no value in
the pipeline can overflow; subnormal results (quotients below `2⁻¹⁰²²`)
are covered by the precision clamp.  All values are non-negative dyadic
rationals and are represented exactly as `num / 2 ^ shift`. -/

/-- A non-negative dyadic rational `num / 2 ^ shift`. -/
structure Dyadic where
  num : Nat
  shift : Nat
  deriving DecidableEq, Repr

/-- Round `a / b` (with `b > 0`) to the nearest integer, ties to even —
the rounding mode of every IEEE-754 operation involved. -/
def rne (a b : Nat) : Nat :=
  let q := a / b
  let r := a % b
  if 2 * r < b then q
  else if b < 2 * r then q + 1
  else if q % 2 = 0 then q else q + 1

/-- `⌊log₂ n⌋` for `n ≥ 1`, by fuelled halving; the fuel is in surplus
whenever it is at least `⌊log₂ n⌋`, in particular when it is `n`
itself. -/
def log2fuel : Nat → Nat → Nat
  | 0, _ => 0
  | fuel + 1, n => if n < 2 then 0 else log2fuel fuel (n / 2) + 1

/-- The binade of `c / t` for `0 < c ≤ t`: the unique `k` with
`t ≤ c * 2 ^ k < 2 * t`, found by doubling; the fuel is in surplus
whenever it is at least `⌊log₂ t⌋ + 1`, in particular when it is `t`. -/
def findkAux : Nat → Nat → Nat → Nat
  | 0, _, _ => 0
  | fuel + 1, x, t => if t ≤ x then 0 else findkAux fuel (2 * x) t + 1

/-- The binary64 value nearest to `c / t`, for `0 ≤ c ≤ t`, `0 < t`:
Python's true division of two non-negative ints in this range.  The
quotient lies in `(0, 1]`, so its binade is `2^(-k)`; the significand is
rounded to 53 bits (to nearest, ties to even) at that binade, or at
`2^(-1074)` once the binade falls into the subnormal range. -/
def fdiv64 (c t : Nat) : Dyadic :=
  if c = 0 then ⟨0, 0⟩
  else
    let k := findkAux t c t
    let sh := min (52 + k) 1074
    ⟨rne (c * 2 ^ sh) t, sh⟩

/-- The binary64 value nearest to `d * 100` for a non-negative binary64
value `d` (`100` is exactly representable, and no input in scope can
overflow): the exact product is re-rounded to 53 significant bits, or to
the fixed grid `2^(-1074)` below the normal range. -/
def fmul100 (d : Dyadic) : Dyadic :=
  if d.num = 0 then ⟨0, 0⟩
  else
    let a := d.num * 100
    let p := log2fuel a a
    let dd : Int := max ((p : Int) - 52) ((d.shift : Int) - 1074)
    if dd ≤ 0 then ⟨a, d.shift⟩
    else ⟨rne a (2 ^ dd.toNat), d.shift - dd.toNat⟩

/-- `int(v)` for a non-negative binary64 value: truncation toward zero,
i.e. the floor. -/
def dyFloor (d : Dyadic) : Nat := d.num / 2 ^ d.shift

/-- Python's `int((completed / total) * 100)` for `0 ≤ completed ≤ total`,
`0 < total`, computed in binary64 arithmetic. -/
def pyProgressInt (completed total : Nat) : Nat :=
  dyFloor (fmul100 (fdiv64 completed total))

/-! ## Entity model

One structure per SQLAlchemy model class.  Nullable `Text`/`String`
columns are `Option String`; `id` is `Option String` because an unsaved
instance has `id = None` until the repository persists it.  The
`created_at` / `updated_at` timestamp columns and the date/enum columns
(`start_date`, `status`, `current_phase`, `deadline`, `priority`, …) are
omitted: no claim in scope reads them and no operation modelled here
touches them. -/

/-- `models.five_whys.FiveWhys`. -/
structure FiveWhys where
  id : Option String := none
  project_id : String := ""
  problem_statement : String := ""
  why_1 : Option String := none
  why_2 : Option String := none
  why_3 : Option String := none
  why_4 : Option String := none
  why_5 : Option String := none
  additional_whys : Option String := none
  root_cause : Option String := none
  is_completed : Bool := false
  deriving DecidableEq, Repr

/-- `models.ishikawa.IshikawaCategory`. -/
structure IshikawaCategory where
  id : Option String := none
  diagram_id : String := ""
  name : String := ""
  causes : Option String := none
  order : Nat := 0
  deriving DecidableEq, Repr

/-- `models.ishikawa.IshikawaDiagram`, with its `categories`
relationship collection inlined. -/
structure IshikawaDiagram where
  id : Option String := none
  project_id : String := ""
  problem_statement : String := ""
  is_completed : Bool := false
  categories : List IshikawaCategory := []
  deriving DecidableEq, Repr

/-- `models.action_plan.ActionPlanTask` (status abstracted to the
completion bit used by `calculate_completion`; no claim reads the other
task fields). -/
structure ActionPlanTask where
  id : Option String := none
  action_plan_id : String := ""
  task_description : String := ""
  deriving DecidableEq, Repr

/-- `models.action_plan.ActionPlan`, with its `tasks` relationship
collection inlined. -/
structure ActionPlan where
  id : Option String := none
  project_id : String := ""
  is_completed : Bool := false
  tasks : List ActionPlanTask := []
  deriving DecidableEq, Repr

/-- `models.project.Project`, with the three child relationship
collections inlined. -/
structure Project where
  id : Option String := none
  name : String := ""
  description : Option String := none
  target_area : Option String := none
  progress_percentage : Nat := 0
  team_members : Option String := none
  five_whys : List FiveWhys := []
  ishikawa_diagrams : List IshikawaDiagram := []
  action_plans : List ActionPlan := []
  deriving DecidableEq, Repr

/-! ## Serialized-list getters and setters

Each getter is `if not blob: return []` followed by `json.loads` under a
`try/except JSONDecodeError` returning `[]`; a blob that is `None` or the
empty string is falsy.  Each setter stores `json.dumps(list)`. -/

/-- `Project.get_team_members`. -/
def get_team_members (p : Project) : List String :=
  match p.team_members with
  | none => []
  | some s => if s = "" then [] else ((json_loads_list s).getD [])

/-- `Project.set_team_members`. -/
def set_team_members (p : Project) (members : List String) : Project :=
  { p with team_members := some (json_dumps_list members) }

/-- `FiveWhys.get_additional_whys`. -/
def get_additional_whys (fw : FiveWhys) : List String :=
  match fw.additional_whys with
  | none => []
  | some s => if s = "" then [] else ((json_loads_list s).getD [])

/-- `FiveWhys.set_additional_whys`. -/
def set_additional_whys (fw : FiveWhys) (whys : List String) : FiveWhys :=
  { fw with additional_whys := some (json_dumps_list whys) }

/-- `IshikawaCategory.get_causes_list`. -/
def get_causes_list (cat : IshikawaCategory) : List String :=
  match cat.causes with
  | none => []
  | some s => if s = "" then [] else ((json_loads_list s).getD [])

/-- `IshikawaCategory.set_causes_list`. -/
def set_causes_list (cat : IshikawaCategory) (causes : List String) : IshikawaCategory :=
  { cat with causes := some (json_dumps_list causes) }

/-- `FiveWhys.get_all_whys`: the loop over `why_1 .. why_5` appends each
slot whose value is truthy (neither `None` nor the empty string), then
`if self.additional_whys:` extends with the parsed additional whys,
swallowing a `JSONDecodeError`. -/
def get_all_whys (fw : FiveWhys) : List String :=
  ([fw.why_1, fw.why_2, fw.why_3, fw.why_4, fw.why_5].filterMap
      (fun w => match w with
        | none => none
        | some s => if s = "" then none else some s)) ++
    (match fw.additional_whys with
     | none => []
     | some s => if s = "" then [] else ((json_loads_list s).getD []))

/-! ## Progress aggregation -/

/-- `Project.calculate_progress`.  The accumulation mirrors the source:
each child collection is guarded by its truthiness (an empty list is
falsy, so contributes nothing either way), `total_count` receives the
length and `completed_count` the number of children with
`is_completed`.  With `total_count = 0` the function returns `0` without
touching `progress_percentage`; otherwise the binary64 percentage is
computed, written back into `progress_percentage`, and returned.  The
returned pair is (return value, post-call project). -/
def calculate_progress (p : Project) : Nat × Project :=
  let cc0 := 0
  let tc0 := 0
  let cc1 := if p.five_whys.isEmpty then cc0 else
    cc0 + p.five_whys.countP (fun fw => fw.is_completed)
  let tc1 := if p.five_whys.isEmpty then tc0 else tc0 + p.five_whys.length
  let cc2 := if p.ishikawa_diagrams.isEmpty then cc1 else
    cc1 + p.ishikawa_diagrams.countP (fun d => d.is_completed)
  let tc2 := if p.ishikawa_diagrams.isEmpty then tc1 else tc1 + p.ishikawa_diagrams.length
  let cc3 := if p.action_plans.isEmpty then cc2 else
    cc2 + p.action_plans.countP (fun a => a.is_completed)
  let tc3 := if p.action_plans.isEmpty then tc2 else tc2 + p.action_plans.length
  if tc3 = 0 then (0, p)
  else
    let progress := pyProgressInt cc3 tc3
    (progress, { p with progress_percentage := progress })

/-- Total number of child artifacts of a project (specification-side
count). -/
def totalArtifacts (p : Project) : Nat :=
  p.five_whys.length + p.ishikawa_diagrams.length + p.action_plans.length

/-- Number of completed child artifacts of a project
(specification-side count). -/
def completedArtifacts (p : Project) : Nat :=
  p.five_whys.countP (fun fw => fw.is_completed) +
    p.ishikawa_diagrams.countP (fun d => d.is_completed) +
    p.action_plans.countP (fun a => a.is_completed)

/-! ## Generic repository

`BaseRepository` is bound to one model class; its persistent state is the
table of that class, modelled as a list of rows in store order, each row
a primary key (the `id` column, a UUID string) paired with the entity
payload.  `session.query(model)` is the whole list, `.filter(cond)` is
`List.filter`, `.first()` is `head?`. -/

section Repository

variable {α : Type} [DecidableEq α]

/-- `BaseRepository.get_by_id`: `query.filter(model.id == record_id).first()`. -/
def repo_get_by_id (rows : List (String × α)) (record_id : String) : Option (String × α) :=
  (rows.filter (fun r => decide (r.1 = record_id))).head?

/-- `BaseRepository.delete`: look the row up by id; if found,
`session.delete(obj)` removes the row with that primary key and the
method returns `True`, otherwise nothing changes and it returns
`False`.  The pair is (table after the call, return value). -/
def repo_delete (rows : List (String × α)) (record_id : String) :
    List (String × α) × Bool :=
  match repo_get_by_id rows record_id with
  | some obj => (rows.eraseP (fun r => decide (r.1 = obj.1)), true)
  | none => (rows, false)

/-- `BaseRepository.update`: `session.merge` upserts by primary key. -/
def repo_update (rows : List (String × α)) (record_id : String) (obj : α) :
    List (String × α) :=
  if rows.any (fun r => decide (r.1 = record_id)) then
    rows.map (fun r => if r.1 = record_id then (record_id, obj) else r)
  else rows ++ [(record_id, obj)]

/-- `BaseRepository.search`: starting from `session.query(model)`, each
`(key, value)` filter for which the model class has attribute `key`
(`hasattr(self.model, key)`) adds the equality condition
`getattr(self.model, key) == value`; a filter whose key is not an
attribute is skipped.  The class's attribute set is `fields`, and a row
is an assignment of a value to each field name. -/
def repo_search (fields : List String) (rows : List (String → α))
    (filters : List (String × α)) : List (String → α) :=
  filters.foldl
    (fun query kv =>
      if kv.1 ∈ fields then query.filter (fun r => decide (r kv.1 = kv.2)) else query)
    rows

end Repository

/-! ## Relational store and delete cascade

The delete cascade is executed by the ORM according to the
`cascade="all, delete-orphan"` declarations: `Project.five_whys`,
`Project.ishikawa_diagrams` and `Project.action_plans` (children keyed by
`project_id`), `IshikawaDiagram.categories` (keyed by `diagram_id`) and
`ActionPlan.tasks` (keyed by `action_plan_id`).  Rows here carry the
primary key and the owning foreign key; the remaining domain columns take
no part in the cascade. -/

/-- A `projects` table row. -/
structure ProjRow where
  id : String
  deriving DecidableEq, Repr

/-- A `five_whys` table row. -/
structure FWRow where
  id : String
  project_id : String
  deriving DecidableEq, Repr

/-- An `ishikawa_diagrams` table row. -/
structure DiagRow where
  id : String
  project_id : String
  deriving DecidableEq, Repr

/-- An `ishikawa_categories` table row. -/
structure CatRow where
  id : String
  diagram_id : String
  deriving DecidableEq, Repr

/-- An `action_plans` table row. -/
structure PlanRow where
  id : String
  project_id : String
  deriving DecidableEq, Repr

/-- An `action_plan_tasks` table row. -/
structure TaskRow where
  id : String
  action_plan_id : String
  deriving DecidableEq, Repr

/-- The six entity tables. -/
structure DB where
  projects : List ProjRow
  five_whys : List FWRow
  ishikawa_diagrams : List DiagRow
  ishikawa_categories : List CatRow
  action_plans : List PlanRow
  action_plan_tasks : List TaskRow
  deriving DecidableEq, Repr

/-- Look a row up by primary key (`query.filter(id == rid).first()`). -/
def findById {ρ : Type} (rows : List ρ) (idOf : ρ → String) (rid : String) : Option ρ :=
  (rows.filter (fun r => decide (idOf r = rid))).head?

/-- `BaseRepository.delete` on the projects repository, together with
the cascades the relationship declarations configure: deleting a project
deletes its `five_whys`, `ishikawa_diagrams` and `action_plans` rows, the
`ishikawa_categories` rows of the deleted diagrams, and the
`action_plan_tasks` rows of the deleted plans.  A missing id leaves the
store unchanged and returns `False`. -/
def deleteProject (db : DB) (pid : String) : DB × Bool :=
  match findById db.projects ProjRow.id pid with
  | none => (db, false)
  | some _ =>
    let deadDiagrams :=
      (db.ishikawa_diagrams.filter (fun d => decide (d.project_id = pid))).map DiagRow.id
    let deadPlans :=
      (db.action_plans.filter (fun a => decide (a.project_id = pid))).map PlanRow.id
    ({ projects := db.projects.eraseP (fun r => decide (r.id = pid)),
       five_whys := db.five_whys.filter (fun f => !decide (f.project_id = pid)),
       ishikawa_diagrams :=
         db.ishikawa_diagrams.filter (fun d => !decide (d.project_id = pid)),
       ishikawa_categories :=
         db.ishikawa_categories.filter (fun c => !decide (c.diagram_id ∈ deadDiagrams)),
       action_plans := db.action_plans.filter (fun a => !decide (a.project_id = pid)),
       action_plan_tasks :=
         db.action_plan_tasks.filter (fun t => !decide (t.action_plan_id ∈ deadPlans)) },
     true)

/-! ## View-level mark-complete handlers

The three artifact views share the guard of `mark_complete`: with no
artifact loaded, or an artifact whose `id` is falsy (not yet persisted),
the handler shows the "Not Saved" / "Please save … first." warning and
returns without changing anything.  Past the guard, a confirmation dialog
is shown; on "Yes" the handler sets `is_completed = True`, writes the
artifact through `repository.update`, and recomputes the loaded project's
progress. -/

/-- The observable outcome of a `mark_complete` click. -/
inductive MarkCompleteResult where
  /-- The "Not Saved" warning: the artifact is absent or unsaved. -/
  | notSavedWarning
  /-- The user answered "No" to the confirmation dialog. -/
  | cancelled
  /-- The artifact was marked complete and persisted. -/
  | success
  deriving DecidableEq, Repr

/-- The state of `FiveWhysView` that `mark_complete` touches. -/
structure FiveWhysView where
  five_whys : Option FiveWhys := none
  project : Option Project := none
  repository : List (String × FiveWhys) := []
  deriving DecidableEq, Repr

/-- `FiveWhysView.mark_complete`; `reply` is the user's answer to the
confirmation dialog. -/
def FiveWhysView.mark_complete (v : FiveWhysView) (reply : Bool) :
    FiveWhysView × MarkCompleteResult :=
  match v.five_whys with
  | none => (v, .notSavedWarning)
  | some fw =>
    match fw.id with
    | none => (v, .notSavedWarning)
    | some fid =>
      if fid = "" then (v, .notSavedWarning)
      else if reply then
        let fw' := { fw with is_completed := true }
        ({ v with
            five_whys := some fw',
            repository := repo_update v.repository fid fw',
            project := v.project.map (fun p => (calculate_progress p).2) },
          .success)
      else (v, .cancelled)

/-- The state of `IshikawaView` that `mark_complete` touches. -/
structure IshikawaView where
  ishikawa : Option IshikawaDiagram := none
  project : Option Project := none
  repository : List (String × IshikawaDiagram) := []
  deriving DecidableEq, Repr

/-- `IshikawaView.mark_complete`. -/
def IshikawaView.mark_complete (v : IshikawaView) (reply : Bool) :
    IshikawaView × MarkCompleteResult :=
  match v.ishikawa with
  | none => (v, .notSavedWarning)
  | some d =>
    match d.id with
    | none => (v, .notSavedWarning)
    | some did =>
      if did = "" then (v, .notSavedWarning)
      else if reply then
        let d' := { d with is_completed := true }
        ({ v with
            ishikawa := some d',
            repository := repo_update v.repository did d',
            project := v.project.map (fun p => (calculate_progress p).2) },
          .success)
      else (v, .cancelled)

/-- The state of `ActionPlanView` that `mark_complete` touches. -/
structure ActionPlanView where
  action_plan : Option ActionPlan := none
  project : Option Project := none
  repository : List (String × ActionPlan) := []
  deriving DecidableEq, Repr

/-- `ActionPlanView.mark_complete`. -/
def ActionPlanView.mark_complete (v : ActionPlanView) (reply : Bool) :
    ActionPlanView × MarkCompleteResult :=
  match v.action_plan with
  | none => (v, .notSavedWarning)
  | some a =>
    match a.id with
    | none => (v, .notSavedWarning)
    | some aid =>
      if aid = "" then (v, .notSavedWarning)
      else if reply then
        let a' := { a with is_completed := true }
        ({ v with
            action_plan := some a',
            repository := repo_update v.repository aid a',
            project := v.project.map (fun p => (calculate_progress p).2) },
          .success)
      else (v, .cancelled)

/-! # Theorems -/

/-! ## JSON round-trip -/

theorem length_encodeChar_pos (c : Char) : 1 ≤ (encodeChar c).length := by
  unfold encodeChar
  split_ifs <;> simp [hex4]

theorem length_le_length_encodeChars (s : List Char) :
    s.length ≤ (encodeChars s).length := by
  induction s with
  | nil => simp [encodeChars]
  | cons c s ih =>
    have := length_encodeChar_pos c
    simp only [encodeChars, List.flatMap_cons, List.length_append,
      List.length_cons] at *
    omega

theorem hexDigit_hexChar : ∀ d : Nat, d < 16 → hexDigitVal (hexChar d) = some d := by
  decide

theorem hex4Val_hex4 (n : Nat) (h : n < 65536) :
    hex4Val (hexChar (n / 4096 % 16)) (hexChar (n / 256 % 16))
      (hexChar (n / 16 % 16)) (hexChar (n % 16)) = some n := by
  have harith : n / 4096 % 16 * 4096 + n / 256 % 16 * 256 + n / 16 % 16 * 16 + n % 16
      = n := by omega
  rw [hex4Val, hexDigit_hexChar _ (Nat.mod_lt _ (by norm_num)),
    hexDigit_hexChar _ (Nat.mod_lt _ (by norm_num)),
    hexDigit_hexChar _ (Nat.mod_lt _ (by norm_num)),
    hexDigit_hexChar _ (Nat.mod_lt _ (by norm_num))]
  simp [harith]

theorem mkChar_toNat (c : Char) : mkChar c.toNat = some c := by
  have h : Nat.isValidChar c.toNat := c.valid
  rw [mkChar, dif_pos h]
  congr 1

theorem char_valid_range (c : Char) :
    c.toNat < 0xd800 ∨ (0xdfff < c.toNat ∧ c.toNat < 0x110000) := c.valid

theorem char_toNat_lt (c : Char) : c.toNat < 0x110000 := by
  rcases char_valid_range c with h | h
  · omega
  · exact h.2

theorem psaUnicode_eval (rec : List Char → Option (List Char × List Char))
    (n : Nat) (h1 h2 h3 h4 : Char) (r2 : List Char)
    (hhex : hex4Val h1 h2 h3 h4 = some n) :
    psaUnicode rec (h1 :: h2 :: h3 :: h4 :: r2) =
      if n < 0xd800 ∨ 0xdfff < n then
        match mkChar n with
        | none => none
        | some ch => (rec r2).map (fun p => (ch :: p.1, p.2))
      else if n ≤ 0xdbff then psaSurrogate rec n r2
      else none := by
  rw [psaUnicode, hhex]

theorem psaSurrogate_eval (rec : List Char → Option (List Char × List Char))
    (n m : Nat) (g1 g2 g3 g4 : Char) (r3 : List Char)
    (hhex : hex4Val g1 g2 g3 g4 = some m) :
    psaSurrogate rec n ('\\' :: 'u' :: g1 :: g2 :: g3 :: g4 :: r3) =
      if 0xdc00 ≤ m ∧ m ≤ 0xdfff then
        match mkChar (0x10000 + (n - 0xd800) * 1024 + (m - 0xdc00)) with
        | none => none
        | some ch => (rec r3).map (fun p => (ch :: p.1, p.2))
      else none := by
  rw [psaSurrogate, if_pos ⟨rfl, rfl⟩, hhex]

theorem parseChar_encode (c : Char) (k : Nat) (xs : List Char) :
    parseStringAux (k + 1) (encodeChar c ++ xs) =
      (parseStringAux k xs).map (fun p => (c :: p.1, p.2)) := by
  by_cases h1 : c = '"'
  · subst h1; rfl
  by_cases h2 : c = '\\'
  · subst h2; rfl
  by_cases h3 : c = '\n'
  · subst h3; rfl
  by_cases h4 : c = '\r'
  · subst h4; rfl
  by_cases h5 : c = '\t'
  · subst h5; rfl
  by_cases h6 : c.toNat = 8
  · have hc : c = Char.ofNat 8 := by rw [← h6, Char.ofNat_toNat]
    subst hc; rfl
  by_cases h7 : c.toNat = 12
  · have hc : c = Char.ofNat 12 := by rw [← h7, Char.ofNat_toNat]
    subst hc; rfl
  by_cases h8 : 0x20 ≤ c.toNat ∧ c.toNat ≤ 0x7e
  · have henc : encodeChar c = [c] := by
      unfold encodeChar
      rw [if_neg h1, if_neg h2, if_neg h3, if_neg h4, if_neg h5,
        if_neg h6, if_neg h7, if_pos h8]
    rw [henc, List.cons_append, List.nil_append, parseStringAux, psaStep,
      if_neg h1, if_neg h2, if_neg (by omega : ¬ c.toNat < 0x20)]
  by_cases h9 : c.toNat < 0x10000
  · -- single `\uXXXX` escape
    have henc : encodeChar c = '\\' :: 'u' :: hex4 c.toNat := by
      unfold encodeChar
      rw [if_neg h1, if_neg h2, if_neg h3, if_neg h4, if_neg h5,
        if_neg h6, if_neg h7, if_neg h8, if_pos h9]
    have hrange : c.toNat < 0xd800 ∨ 0xdfff < c.toNat := by
      rcases char_valid_range c with h | h
      · exact Or.inl h
      · exact Or.inr h.1
    rw [henc]
    simp only [hex4, List.cons_append, List.append_assoc, List.nil_append]
    rw [show ∀ t, parseStringAux (k + 1) ('\\' :: 'u' :: t)
        = psaUnicode (parseStringAux k) t from fun t => rfl,
      psaUnicode_eval _ c.toNat _ _ _ _ _ (hex4Val_hex4 c.toNat h9),
      if_pos hrange, mkChar_toNat c]
  · -- surrogate pair
    have hlt := char_toNat_lt c
    have hmlt : (c.toNat - 0x10000) % 1024 < 1024 := Nat.mod_lt _ (by norm_num)
    set q := (c.toNat - 0x10000) / 1024 with hq
    set m := (c.toNat - 0x10000) % 1024 with hm
    have hqlt : q < 1024 := by rw [hq]; omega
    have henc : encodeChar c =
        '\\' :: 'u' :: hex4 (0xd800 + q) ++ '\\' :: 'u' :: hex4 (0xdc00 + m) := by
      unfold encodeChar
      rw [if_neg h1, if_neg h2, if_neg h3, if_neg h4, if_neg h5,
        if_neg h6, if_neg h7, if_neg h8, if_neg h9]
    have hcomb : 0x10000 + (0xd800 + q - 0xd800) * 1024 + (0xdc00 + m - 0xdc00)
        = c.toNat := by
      have := Nat.div_add_mod (c.toNat - 0x10000) 1024
      omega
    rw [henc]
    simp only [hex4, List.cons_append, List.append_assoc, List.nil_append]
    rw [show ∀ t, parseStringAux (k + 1) ('\\' :: 'u' :: t)
        = psaUnicode (parseStringAux k) t from fun t => rfl,
      psaUnicode_eval _ (0xd800 + q) _ _ _ _ _
        (hex4Val_hex4 (0xd800 + q) (by omega)),
      if_neg (by omega : ¬ (0xd800 + q < 0xd800 ∨ 0xdfff < 0xd800 + q)),
      if_pos (by omega : 0xd800 + q ≤ 0xdbff),
      psaSurrogate_eval _ (0xd800 + q) (0xdc00 + m) _ _ _ _ _
        (hex4Val_hex4 (0xdc00 + m) (by omega)),
      if_pos (⟨by omega, by omega⟩ : 0xdc00 ≤ 0xdc00 + m ∧ 0xdc00 + m ≤ 0xdfff),
      hcomb, mkChar_toNat c]

theorem parseString_encode :
    ∀ (s : List Char) (fuel : Nat), s.length < fuel → ∀ (rest : List Char),
      parseStringAux fuel (encodeChars s ++ '"' :: rest) = some (s, rest) := by
  intro s
  induction s with
  | nil =>
    intro fuel hf rest
    match fuel, hf with
    | fuel + 1, _ => rfl
  | cons c s ih =>
    intro fuel hf rest
    match fuel, hf with
    | fuel + 1, hf =>
      have hs : s.length < fuel := by
        simp only [List.length_cons] at hf; omega
      have ih' := ih fuel hs rest
      rw [encodeChars] at ih' ⊢
      rw [List.flatMap_cons, List.append_assoc, parseChar_encode, ih']
      rfl

theorem parseItemsAux_close (fuel : Nat) (r : List Char) :
    parseItemsAux fuel (']' :: r) = some ([], r) := by
  rw [parseItemsAux]; rfl

theorem parseItemsAux_comma (fuel : Nat) (t s r3 : List Char)
    (hps : parseStringAux (t.length + 1) t = some (s, r3)) :
    parseItemsAux (fuel + 1) (',' :: ' ' :: '"' :: t) =
      (parseItemsAux fuel r3).map (fun p => (s :: p.1, p.2)) := by
  rw [show parseItemsAux (fuel + 1) (',' :: ' ' :: '"' :: t) =
      (match parseStringAux (t.length + 1) t with
      | some (s, r3) => (parseItemsAux fuel r3).map (fun p => (s :: p.1, p.2))
      | none => none) from by rw [parseItemsAux]; rfl, hps]

theorem length_le_length_itemsTail (items : List (List Char)) :
    items.length ≤ (items.flatMap (fun j => ',' :: ' ' :: encodeItem j)).length := by
  induction items with
  | nil => simp
  | cons j rest ih =>
    simp only [List.flatMap_cons, List.length_append, List.length_cons] at *
    omega

theorem parseItems_encode :
    ∀ (items : List (List Char)) (fuel : Nat), items.length ≤ fuel →
      ∀ (r : List Char),
        parseItemsAux fuel
            (items.flatMap (fun j => ',' :: ' ' :: encodeItem j) ++ ']' :: r)
          = some (items, r) := by
  intro items
  induction items with
  | nil =>
    intro fuel _ r
    rw [List.flatMap_nil, List.nil_append, parseItemsAux_close]
  | cons j rest ih =>
    intro fuel hf r
    match fuel, hf with
    | fuel + 1, hf =>
      have hr : rest.length ≤ fuel := by
        simp only [List.length_cons] at hf; omega
      rw [List.flatMap_cons,
        show encodeItem j = '"' :: (encodeChars j ++ ['"']) from rfl]
      simp only [List.cons_append, List.append_assoc, List.nil_append]
      have hlen : j.length <
          (encodeChars j ++
            '"' :: (rest.flatMap (fun j => ',' :: ' ' :: encodeItem j) ++ ']' :: r)).length
            + 1 := by
        have := length_le_length_encodeChars j
        simp only [List.length_append, List.length_cons]
        omega
      rw [parseItemsAux_comma _ _ _ _ (parseString_encode j _ hlen _), ih fuel hr r]
      rfl

theorem jsonLoadsChars_open (t s r3 : List Char)
    (hps : parseStringAux (t.length + 1) t = some (s, r3)) :
    jsonLoadsChars ('[' :: '"' :: t) =
      match parseItemsAux (t.length + 2) r3 with
      | some (ss, rest) => if skipWs rest = [] then some (s :: ss) else none
      | none => none := by
  rw [show jsonLoadsChars ('[' :: '"' :: t) =
      (match parseStringAux (t.length + 1) t with
      | some (s, r3) =>
        match parseItemsAux (t.length + 2) r3 with
        | some (ss, rest) => if skipWs rest = [] then some (s :: ss) else none
        | none => none
      | none => none) from rfl, hps]

theorem jsonLoads_dumps (L : List (List Char)) :
    jsonLoadsChars (dumpsChars L) = some L := by
  cases L with
  | nil => decide
  | cons i rest =>
    rw [dumpsChars,
      show encodeItem i = '"' :: (encodeChars i ++ ['"']) from rfl]
    simp only [List.cons_append, List.append_assoc, List.nil_append]
    have hlen : i.length <
        (encodeChars i ++
          '"' :: (rest.flatMap (fun j => ',' :: ' ' :: encodeItem j) ++ ']' :: [])).length
          + 1 := by
      have := length_le_length_encodeChars i
      simp only [List.length_append, List.length_cons]
      omega
    rw [jsonLoadsChars_open _ _ _ (parseString_encode i _ hlen _)]
    have hfuel : rest.length ≤
        (encodeChars i ++
          '"' :: (rest.flatMap (fun j => ',' :: ' ' :: encodeItem j) ++ ']' :: [])).length
          + 2 := by
      have := length_le_length_itemsTail rest
      simp only [List.length_append, List.length_cons]
      omega
    rw [parseItems_encode rest _ hfuel []]
    rfl

theorem map_mk_data (l : List String) : l.map (fun s => String.mk s.data) = l := by
  induction l with
  | nil => rfl
  | cons a t ih => simp [ih, show String.mk a.data = a from rfl]

theorem json_roundtrip (L : List String) :
    json_loads_list (json_dumps_list L) = some L := by
  rw [json_loads_list, json_dumps_list,
    show (String.mk (dumpsChars (L.map String.data))).data
      = dumpsChars (L.map String.data) from rfl,
    jsonLoads_dumps]
  simp only [Option.map_some']
  rw [List.map_map,
    show String.mk ∘ String.data = fun s => String.mk s.data from rfl,
    map_mk_data]

theorem json_dumps_ne_empty (L : List String) : json_dumps_list L ≠ "" := by
  intro h
  have hd := congrArg String.data h
  rw [json_dumps_list] at hd
  cases L <;> simp [dumpsChars] at hd

/-! ## Serialized-list claims -/

/-- C6: for every non-empty list of strings `L`, setting a
serialized-list field to `L` and then getting it returns `L` unchanged,
for all three field pairs (team members, additional whys, causes). -/
theorem serialized_list_roundtrip (L : List String) (_hL : L ≠ []) :
    (∀ p : Project, get_team_members (set_team_members p L) = L) ∧
    (∀ fw : FiveWhys, get_additional_whys (set_additional_whys fw L) = L) ∧
    (∀ cat : IshikawaCategory, get_causes_list (set_causes_list cat L) = L) := by
  have hne := json_dumps_ne_empty L
  have hrt := json_roundtrip L
  refine ⟨fun p => ?_, fun fw => ?_, fun cat => ?_⟩
  · simp [get_team_members, set_team_members, hne, hrt]
  · simp [get_additional_whys, set_additional_whys, hne, hrt]
  · simp [get_causes_list, set_causes_list, hne, hrt]

/-- C6 witness: the round-trip at concrete non-empty lists. -/
theorem serialized_list_roundtrip_witness :
    get_team_members (set_team_members {} ["Alice", "Bob"]) = ["Alice", "Bob"] ∧
    get_additional_whys (set_additional_whys {} ["Why 6"]) = ["Why 6"] ∧
    get_causes_list (set_causes_list {} ["High turnover"]) = ["High turnover"] :=
  ⟨(serialized_list_roundtrip ["Alice", "Bob"] (by decide)).1 {},
   (serialized_list_roundtrip ["Why 6"] (by decide)).2.1 {},
   (serialized_list_roundtrip ["High turnover"] (by decide)).2.2 {}⟩

/-- C5: the serialized-list getters are total; on an absent, empty, or
unparseable blob each returns the empty list. -/
theorem serialized_getters_degrade (blob : Option String)
    (h : blob = none ∨ blob = some "" ∨
      ∀ s, blob = some s → json_loads_list s = none) :
    (∀ p : Project, p.team_members = blob → get_team_members p = []) ∧
    (∀ fw : FiveWhys, fw.additional_whys = blob → get_additional_whys fw = []) ∧
    (∀ cat : IshikawaCategory, cat.causes = blob → get_causes_list cat = []) := by
  refine ⟨fun p hp => ?_, fun fw hfw => ?_, fun cat hc => ?_⟩
  · rw [get_team_members, hp]
    rcases h with rfl | rfl | hbad
    · rfl
    · simp
    · cases blob with
      | none => rfl
      | some s => simp [hbad s rfl]
  · rw [get_additional_whys, hfw]
    rcases h with rfl | rfl | hbad
    · rfl
    · simp
    · cases blob with
      | none => rfl
      | some s => simp [hbad s rfl]
  · rw [get_causes_list, hc]
    rcases h with rfl | rfl | hbad
    · rfl
    · simp
    · cases blob with
      | none => rfl
      | some s => simp [hbad s rfl]

/-- C5 witness: a malformed blob, an empty blob and an absent blob at
concrete records. -/
theorem serialized_getters_degrade_witness :
    get_team_members { team_members := some "not json" } = [] ∧
    get_additional_whys { additional_whys := some "" } = [] ∧
    get_causes_list { causes := none } = [] :=
  ⟨(serialized_getters_degrade (some "not json")
      (Or.inr (Or.inr (fun s hs => by
        injection hs with h
        exact h ▸ (by decide : json_loads_list "not json" = none))))).1 _ rfl,
   (serialized_getters_degrade (some "") (Or.inr (Or.inl rfl))).2.1 _ rfl,
   (serialized_getters_degrade none (Or.inl rfl)).2.2 _ rfl⟩

theorem filterMap_truthy_of_no_empty (l : List (Option String))
    (h : ∀ w ∈ l, w ≠ some "") :
    l.filterMap (fun w => match w with
      | none => none
      | some s => if s = "" then none else some s) = l.filterMap id := by
  induction l with
  | nil => rfl
  | cons a t ih =>
    have ha := h a (by simp)
    have ht : ∀ w ∈ t, w ≠ some "" := fun w hw => h w (by simp [hw])
    cases a with
    | none => simpa using ih ht
    | some s =>
      have hs : ¬ s = "" := fun he => ha (by rw [he])
      simp only [List.filterMap_cons, if_neg hs]
      rw [ih ht]
      rfl

/-- C2: `get_all_whys` returns the fixed slots `why_1 .. why_5` in that
order with unset slots skipped, followed by the stored additional whys
in their stored order. -/
theorem get_all_whys_order (fw : FiveWhys) (L : List String)
    (hadd : fw.additional_whys = some (json_dumps_list L))
    (hslots : ∀ w ∈ [fw.why_1, fw.why_2, fw.why_3, fw.why_4, fw.why_5],
      w ≠ some "") :
    get_all_whys fw =
      ([fw.why_1, fw.why_2, fw.why_3, fw.why_4, fw.why_5].filterMap id) ++ L := by
  have h1 : (match fw.additional_whys with
      | none => ([] : List String)
      | some s => if s = "" then [] else ((json_loads_list s).getD [])) = L := by
    rw [hadd]
    simp [json_dumps_ne_empty L, json_roundtrip L]
  rw [get_all_whys, h1, filterMap_truthy_of_no_empty _ hslots]

/-- C2 witness: why_1 = "A", why_3 = "C", additional = ["D"] produce
exactly ["A", "C", "D"]. -/
theorem get_all_whys_order_witness :
    get_all_whys
        { why_1 := some "A", why_3 := some "C",
          additional_whys := some (json_dumps_list ["D"]) }
      = ["A", "C", "D"] := by
  have h := get_all_whys_order
    { why_1 := some "A", why_3 := some "C",
      additional_whys := some (json_dumps_list ["D"]) } ["D"] rfl (by decide)
  simpa using h

/-- C10: a fixed why slot holding the empty string is skipped by
`get_all_whys` exactly like an unset slot (shown for each of the five
slots), while empty strings stored inside `additional_whys` are kept in
the result. -/
theorem get_all_whys_empty_string_slots :
    (∀ fw : FiveWhys, get_all_whys { fw with why_1 := some "" }
      = get_all_whys { fw with why_1 := none }) ∧
    (∀ fw : FiveWhys, get_all_whys { fw with why_2 := some "" }
      = get_all_whys { fw with why_2 := none }) ∧
    (∀ fw : FiveWhys, get_all_whys { fw with why_3 := some "" }
      = get_all_whys { fw with why_3 := none }) ∧
    (∀ fw : FiveWhys, get_all_whys { fw with why_4 := some "" }
      = get_all_whys { fw with why_4 := none }) ∧
    (∀ fw : FiveWhys, get_all_whys { fw with why_5 := some "" }
      = get_all_whys { fw with why_5 := none }) ∧
    get_all_whys
        { why_1 := some "A",
          additional_whys := some (json_dumps_list ["", "X"]) }
      = ["A", "", "X"] := by
  refine ⟨fun fw => ?_, fun fw => ?_, fun fw => ?_, fun fw => ?_, fun fw => ?_, ?_⟩
  · simp [get_all_whys]
  · simp only [get_all_whys]
    congr 1
  · simp only [get_all_whys]
    congr 1
  · simp only [get_all_whys]
    congr 1
  · simp only [get_all_whys]
    congr 1
  · decide

/-! ## Progress-aggregation claims -/

theorem calculate_progress_fst (p : Project) :
    (calculate_progress p).1 =
      if totalArtifacts p = 0 then 0
      else pyProgressInt (completedArtifacts p) (totalArtifacts p) := by
  rw [calculate_progress, totalArtifacts, completedArtifacts]
  by_cases hf : p.five_whys = [] <;> by_cases hi : p.ishikawa_diagrams = [] <;>
    by_cases ha : p.action_plans = [] <;>
    simp [hf, hi, ha, List.isEmpty_iff]

/-- C1 (amended): `calculate_progress` returns Python's
`int((completed / total) * 100)` evaluated in IEEE-754 binary64
arithmetic over the child counts (`0` when there are no children); this
truncation of the rounded double product still yields `66` for 2
completed of 3, but can fall one below the exact `⌊100·completed/total⌋`
— at 29 completed of 50 it yields `57` where the exact floor is `58`. -/
theorem calculate_progress_float_formula :
    (∀ p : Project, (calculate_progress p).1 =
      if totalArtifacts p = 0 then 0
      else pyProgressInt (completedArtifacts p) (totalArtifacts p)) ∧
    pyProgressInt 2 3 = 66 ∧ pyProgressInt 29 50 = 57 ∧ 100 * 29 / 50 = 58 :=
  ⟨calculate_progress_fst, by decide, by decide, by decide⟩

/-- C1 counterexample: a project with 50 FiveWhys children, 29 of them
completed; `calculate_progress` returns `57`, not the exact
`⌊100 · 29 / 50⌋ = 58` the claim requires. -/
theorem calculate_progress_not_exact_floor :
    (calculate_progress
        { five_whys := List.replicate 29 { is_completed := true }
            ++ List.replicate 21 {} }).1 = 57 ∧
    completedArtifacts
        { five_whys := List.replicate 29 { is_completed := true }
            ++ List.replicate 21 {} } = 29 ∧
    totalArtifacts
        { five_whys := List.replicate 29 { is_completed := true }
            ++ List.replicate 21 {} } = 50 ∧
    (100 * 29 / 50 : Nat) = 58 := by
  refine ⟨?_, by decide, by decide, by decide⟩
  decide

/-- C3 (amended): `calculate_progress` writes the value it returns back
into `progress_percentage` exactly when the project has at least one
child artifact; with zero children it returns `0` and leaves the project
— in particular a stale `progress_percentage` — untouched. -/
theorem calculate_progress_writeback :
    ∀ p : Project, (calculate_progress p).2 =
      if totalArtifacts p = 0 then p
      else { p with progress_percentage := (calculate_progress p).1 } := by
  intro p
  rw [calculate_progress, totalArtifacts]
  by_cases hf : p.five_whys = [] <;> by_cases hi : p.ishikawa_diagrams = [] <;>
    by_cases ha : p.action_plans = [] <;>
    simp [calculate_progress, hf, hi, ha, List.isEmpty_iff]

/-- C1 witness: the spec's own example — three artifacts, two complete —
evaluated through the formula: the result is 66. -/
theorem calculate_progress_float_formula_witness :
    (calculate_progress
        { five_whys := [{ is_completed := true }, { is_completed := true }, {}] }).1
      = 66 := by
  rw [calculate_progress_float_formula.1]
  decide

/-- C3 witness: one completed FiveWhys and one open IshikawaDiagram; the
computed 50 is written back into `progress_percentage`. -/
theorem calculate_progress_writeback_witness :
    (calculate_progress
        { five_whys := [{ is_completed := true }],
          ishikawa_diagrams := [{}] }).2.progress_percentage = 50 := by
  rw [calculate_progress_writeback]
  decide

/-- C3 counterexample: a project with no children and a (stale)
`progress_percentage` of 100; the call returns `0` but the field keeps
its old value `100`, so the field does not equal the returned value. -/
theorem calculate_progress_no_writeback_on_empty :
    (calculate_progress { progress_percentage := 100 }).1 = 0 ∧
    (calculate_progress { progress_percentage := 100 }).2.progress_percentage
      = 100 := by
  decide

/-! ## Generic repository claims -/

section RepositoryTheorems

variable {α : Type}

theorem repo_search_eq_filter [DecidableEq α] (fields : List String) :
    ∀ (filters : List (String × α)) (rows : List (String → α)),
      repo_search fields rows filters = rows.filter
        (fun r => filters.all
          (fun kv => !(decide (kv.1 ∈ fields)) || decide (r kv.1 = kv.2))) := by
  intro filters
  induction filters with
  | nil =>
    intro rows
    simp [repo_search]
  | cons kv fs ih =>
    intro rows
    have step := ih
      (if kv.1 ∈ fields then rows.filter (fun r => decide (r kv.1 = kv.2)) else rows)
    rw [repo_search] at step ⊢
    rw [List.foldl_cons, step]
    by_cases hk : kv.1 ∈ fields
    · rw [if_pos hk, List.filter_filter]
      apply List.filter_congr
      intro r _
      rw [List.all_cons]
      simp [hk, Bool.and_comm]
    · rw [if_neg hk]
      apply List.filter_congr
      intro r _
      rw [List.all_cons]
      simp [hk]

theorem all_guard {β : Type} (q P : β → Bool) :
    ∀ l : List β, (l.filter q).all (fun b => !q b || P b)
      = l.all (fun b => !q b || P b) := by
  intro l
  induction l with
  | nil => rfl
  | cons b t ih =>
    by_cases hq : q b = true
    · rw [List.filter_cons_of_pos hq, List.all_cons, List.all_cons, ih]
    · rw [List.filter_cons_of_neg (by simp [hq]), List.all_cons, ih]
      have : q b = false := by simpa using hq
      simp [this]

/-- C7: `search` returns exactly the rows on which every filter whose
key is an attribute of the bound model equals the given value; filters
with unknown keys are skipped, so a search behaves identically with
those filters removed. -/
theorem repo_search_spec [DecidableEq α] (fields : List String)
    (rows : List (String → α)) (filters : List (String × α)) :
    repo_search fields rows filters = rows.filter
        (fun r => filters.all
          (fun kv => !(decide (kv.1 ∈ fields)) || decide (r kv.1 = kv.2))) ∧
    repo_search fields rows filters
      = repo_search fields rows
          (filters.filter (fun kv => decide (kv.1 ∈ fields))) ∧
    ∀ r, r ∈ repo_search fields rows filters ↔
      r ∈ rows ∧ ∀ kv ∈ filters, kv.1 ∈ fields → r kv.1 = kv.2 := by
  refine ⟨repo_search_eq_filter fields filters rows, ?_, ?_⟩
  · rw [repo_search_eq_filter, repo_search_eq_filter]
    apply List.filter_congr
    intro r _
    exact (all_guard (fun kv => decide (kv.1 ∈ fields))
      (fun kv => decide (r kv.1 = kv.2)) filters).symm
  · intro r
    rw [repo_search_eq_filter, List.mem_filter, List.all_eq_true]
    constructor
    · rintro ⟨hr, hall⟩
      refine ⟨hr, fun kv hkv hk => ?_⟩
      have := hall kv hkv
      simp [hk] at this
      exact this
    · rintro ⟨hr, hall⟩
      refine ⟨hr, fun kv hkv => ?_⟩
      by_cases hk : kv.1 ∈ fields
      · simp [hk, hall kv hkv hk]
      · simp [hk]

theorem repo_get_by_id_eq_none_iff (rows : List (String × α)) (rid : String) :
    repo_get_by_id rows rid = none ↔ ∀ r ∈ rows, r.1 ≠ rid := by
  rw [repo_get_by_id, List.head?_eq_none_iff, List.filter_eq_nil_iff]
  simp

theorem repo_get_by_id_some {rows : List (String × α)} {rid : String}
    {obj : String × α} (h : repo_get_by_id rows rid = some obj) :
    obj ∈ rows ∧ obj.1 = rid := by
  rw [repo_get_by_id] at h
  have hmem : obj ∈ rows.filter (fun r => decide (r.1 = rid)) := by
    cases hfl : rows.filter (fun r => decide (r.1 = rid)) with
    | nil => rw [hfl] at h; cases h
    | cons a t =>
      rw [hfl] at h
      injection h with h
      rw [← h]
      exact List.mem_cons_self a t
  have := List.mem_filter.mp hmem
  exact ⟨this.1, by simpa using this.2⟩

theorem eraseP_key_eq_filter (rid : String) :
    ∀ (rows : List (String × α)), (rows.map Prod.fst).Nodup →
      rows.eraseP (fun r => decide (r.1 = rid))
        = rows.filter (fun r => !decide (r.1 = rid)) := by
  intro rows
  induction rows with
  | nil => intro _; rfl
  | cons x t ih =>
    intro hnd
    rw [List.map_cons, List.nodup_cons] at hnd
    by_cases hx : x.1 = rid
    · rw [List.eraseP_cons_of_pos (by simpa using hx),
        List.filter_cons_of_neg (by simpa using hx)]
      symm
      rw [List.filter_eq_self]
      intro r hr
      have : r.1 ≠ rid := by
        intro he
        exact hnd.1 (by rw [hx, ← he]; exact List.mem_map_of_mem Prod.fst hr)
      simpa using this
    · rw [List.eraseP_cons_of_neg (by simpa using hx),
        List.filter_cons_of_pos (by simpa using hx), ih hnd.2]

theorem countP_key_one (rid : String) :
    ∀ (rows : List (String × α)), (rows.map Prod.fst).Nodup →
      rows.any (fun r => decide (r.1 = rid)) = true →
      rows.countP (fun r => decide (r.1 = rid)) = 1 := by
  intro rows
  induction rows with
  | nil => intro _ h; cases h
  | cons x t ih =>
    intro hnd hany
    rw [List.map_cons, List.nodup_cons] at hnd
    by_cases hx : x.1 = rid
    · rw [List.countP_cons_of_pos _ _ (by simpa using hx)]
      have hzero : t.countP (fun r => decide (r.1 = rid)) = 0 := by
        rw [List.countP_eq_zero]
        intro r hr
        simp only [decide_eq_true_iff]
        intro he
        exact hnd.1 (by rw [hx, ← he]; exact List.mem_map_of_mem Prod.fst hr)
      omega
    · rw [List.countP_cons_of_neg _ _ (by simpa using hx)]
      apply ih hnd.2
      rw [List.any_cons] at hany
      simpa [hx] using hany

/-- C8: `delete` returns whether a row with the given id existed; when
none does the table is unchanged, and when one does exactly that row is
removed — afterwards the id no longer resolves, every other id resolves
as before, and the table is one row shorter. -/
theorem repo_delete_spec (rows : List (String × α)) (rid : String)
    (hnd : (rows.map Prod.fst).Nodup) :
    (repo_delete rows rid).2 = rows.any (fun r => decide (r.1 = rid)) ∧
    (repo_delete rows rid).1 = rows.filter (fun r => !decide (r.1 = rid)) ∧
    repo_get_by_id (repo_delete rows rid).1 rid = none ∧
    (∀ rid2, rid2 ≠ rid →
      repo_get_by_id (repo_delete rows rid).1 rid2 = repo_get_by_id rows rid2) ∧
    (rows.any (fun r => decide (r.1 = rid)) = true →
      (repo_delete rows rid).1.length + 1 = rows.length) := by
  have hfst : (repo_delete rows rid).1
      = rows.filter (fun r => !decide (r.1 = rid)) := by
    cases hdel : repo_get_by_id rows rid with
    | none =>
      rw [repo_delete, hdel]
      show rows = _
      symm
      rw [List.filter_eq_self]
      intro r hr
      have := (repo_get_by_id_eq_none_iff rows rid).mp hdel r hr
      simpa using this
    | some obj =>
      rw [repo_delete, hdel]
      have hobj := repo_get_by_id_some hdel
      show rows.eraseP (fun r => decide (r.1 = obj.1)) = _
      rw [hobj.2]
      exact eraseP_key_eq_filter rid rows hnd
  have hsnd : (repo_delete rows rid).2
      = rows.any (fun r => decide (r.1 = rid)) := by
    cases hdel : repo_get_by_id rows rid with
    | none =>
      rw [repo_delete, hdel]
      show false = _
      symm
      rw [List.any_eq_false]
      intro r hr
      have := (repo_get_by_id_eq_none_iff rows rid).mp hdel r hr
      simpa using this
    | some obj =>
      rw [repo_delete, hdel]
      have hobj := repo_get_by_id_some hdel
      show true = _
      symm
      rw [List.any_eq_true]
      exact ⟨obj, hobj.1, by simpa using hobj.2⟩
  refine ⟨hsnd, hfst, ?_, ?_, ?_⟩
  · rw [hfst, repo_get_by_id_eq_none_iff]
    intro r hr
    have := (List.mem_filter.mp hr).2
    simpa using this
  · intro rid2 hne
    rw [hfst, repo_get_by_id, repo_get_by_id, List.filter_filter]
    congr 1
    apply List.filter_congr
    intro r _
    by_cases h2 : r.1 = rid2
    · have : ¬ r.1 = rid := by rw [h2]; exact hne
      simp [h2, this, hne]
    · simp [h2]
  · intro hany
    rw [hfst, ← List.countP_eq_length_filter]
    have h1 := countP_key_one rid rows hnd hany
    have h2 := List.length_eq_countP_add_countP
      (fun r => decide (r.1 = rid)) (l := rows)
    have h3 : rows.countP (fun r => !decide (r.1 = rid))
        = rows.countP (fun r => decide (¬ decide (r.1 = rid) = true)) := by
      apply List.countP_congr
      intro r _
      constructor
      · intro h; simpa using h
      · intro h; simpa using h
    omega

/-- C8 witness: deleting a missing id and an existing id in concrete
two-row tables. -/
theorem repo_delete_spec_witness :
    (repo_delete [("a", (0 : Nat))] "b").1 = [("a", 0)] ∧
    (repo_delete [("a", (0 : Nat))] "b").2 = false ∧
    (repo_delete [("a", (0 : Nat)), ("b", 1)] "a").2 = true ∧
    repo_get_by_id (repo_delete [("a", (0 : Nat)), ("b", 1)] "a").1 "a" = none ∧
    repo_get_by_id (repo_delete [("a", (0 : Nat)), ("b", 1)] "a").1 "b"
      = repo_get_by_id [("a", (0 : Nat)), ("b", 1)] "b" := by
  have h1 := repo_delete_spec [("a", (0 : Nat))] "b" (by decide)
  have h2 := repo_delete_spec [("a", (0 : Nat)), ("b", 1)] "a" (by decide)
  exact ⟨by rw [h1.2.1]; decide, by rw [h1.1]; decide, by rw [h2.1]; decide,
    h2.2.2.1, h2.2.2.2.1 "b" (by decide)⟩

/-- C7 witness: a two-row table searched with one matching filter and
one unknown-key filter returns exactly the matching row. -/
theorem repo_search_spec_witness :
    repo_search ["project_id"] [fun _ => (5 : Nat), fun _ => 6]
        [("project_id", 5), ("unknown_key", 7)]
      = [fun _ => (5 : Nat)] := by
  rw [(repo_search_spec ["project_id"] [fun _ => (5 : Nat), fun _ => 6]
    [("project_id", 5), ("unknown_key", 7)]).1]
  rfl

end RepositoryTheorems

/-! ## Cascade-delete claim -/

theorem findById_eq_none_iff {ρ : Type} (rows : List ρ) (idOf : ρ → String)
    (rid : String) :
    findById rows idOf rid = none ↔ ∀ r ∈ rows, idOf r ≠ rid := by
  rw [findById, List.head?_eq_none_iff, List.filter_eq_nil_iff]
  simp

theorem findById_filter_none {ρ : Type} (rows : List ρ) (idOf : ρ → String)
    (p : ρ → Bool) (hnd : (rows.map idOf).Nodup) (r : ρ) (hmem : r ∈ rows)
    (hp : p r = true) :
    findById (rows.filter (fun x => !p x)) idOf (idOf r) = none := by
  rw [findById_eq_none_iff]
  intro x hx he
  have hx' := List.mem_filter.mp hx
  have hxr : x = r := List.inj_on_of_nodup_map hnd hx'.1 hmem he
  have hb := hx'.2
  rw [hxr, hp] at hb
  exact Bool.false_ne_true ((Bool.not_eq_true' true).mp hb).symm

theorem findById_isSome_of_mem {ρ : Type} (rows : List ρ) (idOf : ρ → String)
    {r : ρ} {rid : String} (hmem : r ∈ rows) (hid : idOf r = rid) :
    ∃ obj, findById rows idOf rid = some obj := by
  rw [findById]
  cases hfl : rows.filter (fun x => decide (idOf x = rid)) with
  | nil =>
    exfalso
    have : r ∈ rows.filter (fun x => decide (idOf x = rid)) :=
      List.mem_filter.mpr ⟨hmem, by simp [hid]⟩
    rw [hfl] at this
    cases this
  | cons a t => exact ⟨a, rfl⟩

/-- C4: deleting a persisted project removes every FiveWhys,
IshikawaDiagram and ActionPlan row owned by it, every category row of a
deleted diagram, and every task row of a deleted plan — afterwards none
of them is reachable by its former id (primary keys being unique, as the
Nodup hypotheses state). -/
theorem deleteProject_cascades (db : DB) (pid : String) (pr : ProjRow)
    (hpr : pr ∈ db.projects) (hprid : pr.id = pid)
    (hfw : (db.five_whys.map FWRow.id).Nodup)
    (hdg : (db.ishikawa_diagrams.map DiagRow.id).Nodup)
    (hct : (db.ishikawa_categories.map CatRow.id).Nodup)
    (hpl : (db.action_plans.map PlanRow.id).Nodup)
    (htk : (db.action_plan_tasks.map TaskRow.id).Nodup) :
    (deleteProject db pid).2 = true ∧
    (∀ f ∈ db.five_whys, f.project_id = pid →
      findById (deleteProject db pid).1.five_whys FWRow.id f.id = none) ∧
    (∀ d ∈ db.ishikawa_diagrams, d.project_id = pid →
      findById (deleteProject db pid).1.ishikawa_diagrams DiagRow.id d.id = none ∧
      ∀ c ∈ db.ishikawa_categories, c.diagram_id = d.id →
        findById (deleteProject db pid).1.ishikawa_categories CatRow.id c.id
          = none) ∧
    (∀ a ∈ db.action_plans, a.project_id = pid →
      findById (deleteProject db pid).1.action_plans PlanRow.id a.id = none ∧
      ∀ t ∈ db.action_plan_tasks, t.action_plan_id = a.id →
        findById (deleteProject db pid).1.action_plan_tasks TaskRow.id t.id
          = none) := by
  obtain ⟨obj, hsome⟩ := findById_isSome_of_mem db.projects ProjRow.id hpr hprid
  have hd : deleteProject db pid =
      ({ projects := db.projects.eraseP (fun r => decide (r.id = pid)),
         five_whys := db.five_whys.filter (fun f => !decide (f.project_id = pid)),
         ishikawa_diagrams :=
           db.ishikawa_diagrams.filter (fun d => !decide (d.project_id = pid)),
         ishikawa_categories := db.ishikawa_categories.filter (fun c =>
           !decide (c.diagram_id ∈
             (db.ishikawa_diagrams.filter
               (fun d => decide (d.project_id = pid))).map DiagRow.id)),
         action_plans :=
           db.action_plans.filter (fun a => !decide (a.project_id = pid)),
         action_plan_tasks := db.action_plan_tasks.filter (fun t =>
           !decide (t.action_plan_id ∈
             (db.action_plans.filter
               (fun a => decide (a.project_id = pid))).map PlanRow.id)) },
       true) := by
    unfold deleteProject
    rw [hsome]
  refine ⟨by rw [hd], fun f hf hfpid => ?_, fun d hdm hdpid => ⟨?_, ?_⟩,
    fun a ham hapid => ⟨?_, ?_⟩⟩
  · rw [hd]
    exact findById_filter_none db.five_whys FWRow.id
      (fun f => decide (f.project_id = pid)) hfw f hf (by simp [hfpid])
  · rw [hd]
    exact findById_filter_none db.ishikawa_diagrams DiagRow.id
      (fun d => decide (d.project_id = pid)) hdg d hdm (by simp [hdpid])
  · intro c hcm hcd
    rw [hd]
    exact findById_filter_none db.ishikawa_categories CatRow.id
      (fun c => decide (c.diagram_id ∈
        (db.ishikawa_diagrams.filter
          (fun d => decide (d.project_id = pid))).map DiagRow.id))
      hct c hcm
      (by
        simp only [decide_eq_true_iff]
        rw [hcd]
        exact List.mem_map_of_mem DiagRow.id
          (List.mem_filter.mpr ⟨hdm, by simp [hdpid]⟩))
  · rw [hd]
    exact findById_filter_none db.action_plans PlanRow.id
      (fun a => decide (a.project_id = pid)) hpl a ham (by simp [hapid])
  · intro t htm hta
    rw [hd]
    exact findById_filter_none db.action_plan_tasks TaskRow.id
      (fun t => decide (t.action_plan_id ∈
        (db.action_plans.filter
          (fun a => decide (a.project_id = pid))).map PlanRow.id))
      htk t htm
      (by
        simp only [decide_eq_true_iff]
        rw [hta]
        exact List.mem_map_of_mem PlanRow.id
          (List.mem_filter.mpr ⟨ham, by simp [hapid]⟩))

/-- C4 witness: a one-project store with one child of each kind (and one
grandchild of each kind); after the delete none of them resolves by its
former id. -/
theorem deleteProject_cascades_witness :
    (deleteProject
        { projects := [⟨"p1"⟩], five_whys := [⟨"f1", "p1"⟩],
          ishikawa_diagrams := [⟨"d1", "p1"⟩],
          ishikawa_categories := [⟨"c1", "d1"⟩],
          action_plans := [⟨"a1", "p1"⟩],
          action_plan_tasks := [⟨"t1", "a1"⟩] } "p1").2 = true ∧
    findById (deleteProject
        { projects := [⟨"p1"⟩], five_whys := [⟨"f1", "p1"⟩],
          ishikawa_diagrams := [⟨"d1", "p1"⟩],
          ishikawa_categories := [⟨"c1", "d1"⟩],
          action_plans := [⟨"a1", "p1"⟩],
          action_plan_tasks := [⟨"t1", "a1"⟩] } "p1").1.ishikawa_categories
      CatRow.id "c1" = none ∧
    findById (deleteProject
        { projects := [⟨"p1"⟩], five_whys := [⟨"f1", "p1"⟩],
          ishikawa_diagrams := [⟨"d1", "p1"⟩],
          ishikawa_categories := [⟨"c1", "d1"⟩],
          action_plans := [⟨"a1", "p1"⟩],
          action_plan_tasks := [⟨"t1", "a1"⟩] } "p1").1.action_plan_tasks
      TaskRow.id "t1" = none := by
  have h := deleteProject_cascades
    { projects := [⟨"p1"⟩], five_whys := [⟨"f1", "p1"⟩],
      ishikawa_diagrams := [⟨"d1", "p1"⟩],
      ishikawa_categories := [⟨"c1", "d1"⟩],
      action_plans := [⟨"a1", "p1"⟩],
      action_plan_tasks := [⟨"t1", "a1"⟩] } "p1" ⟨"p1"⟩
    (by decide) rfl (by decide) (by decide) (by decide) (by decide) (by decide)
  exact ⟨h.1,
    ((h.2.2.1 ⟨"d1", "p1"⟩ (by decide) rfl).2 ⟨"c1", "d1"⟩ (by decide) rfl),
    ((h.2.2.2 ⟨"a1", "p1"⟩ (by decide) rfl).2 ⟨"t1", "a1"⟩ (by decide) rfl)⟩

/-! ## Mark-complete claim -/

/-- C9: in each of the three artifact views, clicking mark-complete with
no artifact loaded or with an artifact whose id is falsy (not yet
persisted) produces the "Not Saved" warning and changes nothing — the
artifact's `is_completed` flag is untouched and nothing reaches the
repository. -/
theorem mark_complete_requires_saved :
    (∀ (v : FiveWhysView) (reply : Bool) (fw : FiveWhys),
      (v.five_whys = none ∨
        (v.five_whys = some fw ∧ (fw.id = none ∨ fw.id = some ""))) →
      v.mark_complete reply = (v, .notSavedWarning)) ∧
    (∀ (v : IshikawaView) (reply : Bool) (d : IshikawaDiagram),
      (v.ishikawa = none ∨
        (v.ishikawa = some d ∧ (d.id = none ∨ d.id = some ""))) →
      v.mark_complete reply = (v, .notSavedWarning)) ∧
    (∀ (v : ActionPlanView) (reply : Bool) (a : ActionPlan),
      (v.action_plan = none ∨
        (v.action_plan = some a ∧ (a.id = none ∨ a.id = some ""))) →
      v.mark_complete reply = (v, .notSavedWarning)) := by
  refine ⟨fun v reply fw h => ?_, fun v reply d h => ?_, fun v reply a h => ?_⟩
  · rcases h with h | ⟨h, hid | hid⟩
    · simp [FiveWhysView.mark_complete, h]
    · simp [FiveWhysView.mark_complete, h, hid]
    · simp [FiveWhysView.mark_complete, h, hid]
  · rcases h with h | ⟨h, hid | hid⟩
    · simp [IshikawaView.mark_complete, h]
    · simp [IshikawaView.mark_complete, h, hid]
    · simp [IshikawaView.mark_complete, h, hid]
  · rcases h with h | ⟨h, hid | hid⟩
    · simp [ActionPlanView.mark_complete, h]
    · simp [ActionPlanView.mark_complete, h, hid]
    · simp [ActionPlanView.mark_complete, h, hid]

/-- C9 witness: concrete unsaved artifacts in each view. -/
theorem mark_complete_requires_saved_witness :
    FiveWhysView.mark_complete { five_whys := some {} } true
      = ({ five_whys := some {} }, .notSavedWarning) ∧
    IshikawaView.mark_complete { ishikawa := some { id := some "" } } true
      = ({ ishikawa := some { id := some "" } }, .notSavedWarning) ∧
    ActionPlanView.mark_complete {} false = ({}, .notSavedWarning) :=
  ⟨mark_complete_requires_saved.1 _ true {} (Or.inr ⟨rfl, Or.inl rfl⟩),
   mark_complete_requires_saved.2.1 _ true { id := some "" }
     (Or.inr ⟨rfl, Or.inr rfl⟩),
   mark_complete_requires_saved.2.2 _ false {} (Or.inl rfl)⟩

end KaizenBlitz
